import Mathlib

/-!
Shallow embedding of `src/samples/environment/recommender4StudentsEnv.py`
(class `Recommender4StudentsEnv`).

Modelling conventions:
* Python floats are modelled as `ℚ`; float division by zero raises
  `ZeroDivisionError` in Python and is modelled by `pyDiv` returning
  `Except PyErr ℚ`.
* Python list indexing `l[i]` accepts negative indices (wrap-around) and
  raises `IndexError` otherwise; this is modelled by `pyIdx` / `pyGetE`.
* The environment is modelled with `withImage = False`; none of the
  verified claims concerns the optional image encoding, and `step`'s
  accepting branch (line 257) returns the raw grid unconditionally.
* `step` mutates `self` in place and may raise in the middle of the
  mutation sequence (lines 250-253); this is modelled by `step` returning
  the post-call environment together with an `Except` value, so a raised
  exception still reports the partially mutated environment.
-/

/-- Python runtime errors that the embedded code can raise. -/
inductive PyErr where
  | indexError
  | zeroDivisionError
deriving DecidableEq

/-- Resolve a Python list index: negative indices wrap around by the list
length; a resolved index outside `[0, n)` is an `IndexError` (`none`). -/
def pyIdx (n : ℕ) (i : Int) : Option ℕ :=
  let j : Int := if i < 0 then i + n else i
  if 0 ≤ j ∧ j < n then some j.toNat else none

/-- Python list read `l[i]`. -/
def pyGetE {α : Type} (l : List α) (i : Int) : Except PyErr α :=
  match pyIdx l.length i with
  | some j =>
    match l.get? j with
    | some a => .ok a
    | none => .error .indexError
  | none => .error .indexError

/-- Python list write `l[i] = a`.  Every write site in `step` is reached
only after a successful read of the same index, so the out-of-range branch
(returning `l` unchanged) is never taken by the embedded code. -/
def pySet {α : Type} (l : List α) (i : Int) (a : α) : List α :=
  match pyIdx l.length i with
  | some j => l.set j a
  | none => l

/-- Python float division, raising `ZeroDivisionError` on a zero
denominator. -/
def pyDiv (a b : ℚ) : Except PyErr ℚ :=
  if b = 0 then .error .zeroDivisionError else .ok (a / b)

/-- A geographic point, consumed only by the external geodesic-distance
function. -/
abbrev Loc := ℚ × ℚ

/-- An `{"importance": ..., "value": ...}` record from the data files. -/
structure ImpVal (α : Type) where
  importance : ℚ
  value : α
deriving DecidableEq

/-- An `{"importance": ..., "list": [...]}` record from the data files. -/
structure ImpList where
  importance : ℚ
  list : List String
deriving DecidableEq

/-- A student record, with exactly the fields the environment reads. -/
structure Student where
  preferredLocation : ImpVal Loc
  preferredRemote : ImpVal Bool
  preferredMinimumSalary : ImpVal ℚ
  preferredTypeInternship : ImpList
  age : ℚ
  degree : ℚ
  university : String
  averageMark : ℚ
  skills : List String
  workExperience : List String
  volunteerExperience : List String
  languages : List String
deriving DecidableEq

/-- A project record, with exactly the fields the environment reads.
Weighted-list preferences are lists of `(importance, tag)` pairs, as in
the data files. -/
structure Project where
  id : Int
  location : Loc
  remote : Bool
  minimumSalary : ℚ
  type : String
  nParticipants : Int
  preferredAgeParticipants : ImpVal ℚ
  preferredDegreeParticipants : ImpVal ℚ
  preferredUniversityParticipants : ImpList
  preferredAverageMark : ImpVal ℚ
  preferredWorkExperienceParticipants : List (ℚ × String)
  preferredVolunteerExperienceParticipants : List (ℚ × String)
  preferredLanguagesParticipants : List (ℚ × String)
  preferredSkillsNeeded : List (ℚ × String)
deriving DecidableEq

/-- The mutable state of a `Recommender4StudentsEnv` instance
(lines 22-24 and 43-45 of the source). -/
structure Env where
  students : List Student
  projects : List Project
  numberOptions : ℕ
  state : List (List Int)
  assigned : List ℕ
  studentsAssignedToProject : List (List (List Int))
deriving DecidableEq

/-- Weight of the student-preference component (line 9). -/
def ALPHA : ℚ := 5

/-- Weight of the project-preference component (line 10). -/
def GAMMA : ℚ := 3

/-- Weight of the skill-synergy component (line 11). -/
def EPSILON : ℚ := 2

/-- Embeds `_distanceCalculation` (lines 47-50); `dk` is the external
`geodesic(...).km` function. -/
def distanceCalculation (dk : Loc → Loc → ℚ) (studentLocation projectLocation : Loc) : ℚ :=
  let distance := dk studentLocation projectLocation
  if distance > 50 then 0 else (50 - distance) / 50

/-- Embeds `_salaryCalculation` (lines 52-55). -/
def salaryCalculation (studentSalary projectSalary : ℚ) : ℚ :=
  let difference := |studentSalary - projectSalary|
  if studentSalary ≤ projectSalary then 1
  else if difference ≤ 500 then difference / 500 else 0

/-- Embeds `_studentPreferencesPunctuation` (lines 57-74).  The accumulator pairs
`(punctuation, factorsToEvaluate)`; the final division raises
`ZeroDivisionError` when no criterion has nonzero importance. -/
def studentPreferencesPunctuation (dk : Loc → Loc → ℚ) (student : Student)
    (project : Project) : Except PyErr ℚ :=
  let acc : ℚ × ℚ := (0, 0)
  let acc := if student.preferredLocation.importance ≠ 0 then
      (acc.1 + distanceCalculation dk student.preferredLocation.value project.location *
        (student.preferredLocation.importance / 5), acc.2 + 1)
    else acc
  let acc := if student.preferredRemote.importance ≠ 0 then
      (acc.1 + (if project.remote == student.preferredRemote.value then
        student.preferredRemote.importance / 5 else 0), acc.2 + 1)
    else acc
  let acc := if student.preferredMinimumSalary.importance ≠ 0 then
      (acc.1 + salaryCalculation student.preferredMinimumSalary.value project.minimumSalary *
        (student.preferredMinimumSalary.importance / 5), acc.2 + 1)
    else acc
  let acc := if student.preferredTypeInternship.importance ≠ 0 then
      (acc.1 + (if student.preferredTypeInternship.list.contains project.type then
        student.preferredTypeInternship.importance / 5 else 0), acc.2 + 1)
    else acc
  pyDiv acc.1 acc.2

/-- Embeds `_subtractionCalculation` (lines 76-79). -/
def subtractionCalculation (firstValue secondValue maxValue : ℚ) : ℚ :=
  let difference := |firstValue - secondValue|
  if difference ≤ maxValue then difference else 0

/-- Embeds `_markCalculation` (lines 81-84). -/
def markCalculation (studentMark projectMark : ℚ) : ℚ :=
  let difference := |studentMark - projectMark|
  if studentMark ≤ projectMark then 1
  else if difference ≤ 1 then difference / 1 else 0

/-- One weighted-list criterion of `_projectPreferencesPunctuation`
(lines 103-120): each `(importance, tag)` entry whose tag the student has
contributes `(importance / 5) / len(entries)`.  Only called under the
guard `entries.length ≠ 0`. -/
def weightedListPunctuation (entries : List (ℚ × String)) (tags : List String) : ℚ :=
  entries.foldl
    (fun acc entry =>
      if tags.contains entry.2 then acc + (entry.1 / 5) / (entries.length : ℚ) else acc)
    0

/-- Embeds `_projectPreferencesPunctuation` (lines 86-122). -/
def projectPreferencesPunctuation (student : Student) (project : Project) :
    Except PyErr ℚ :=
  let acc : ℚ × ℚ := (0, 0)
  let acc := if project.preferredAgeParticipants.importance ≠ 0 then
      (acc.1 + (project.preferredAgeParticipants.importance / 5) *
        subtractionCalculation project.preferredAgeParticipants.value student.age 5, acc.2 + 1)
    else acc
  let acc := if project.preferredDegreeParticipants.importance ≠ 0 then
      (acc.1 + (project.preferredDegreeParticipants.importance / 5) *
        subtractionCalculation project.preferredDegreeParticipants.value student.degree 2,
        acc.2 + 1)
    else acc
  let acc := if project.preferredUniversityParticipants.importance ≠ 0 then
      (acc.1 + (if project.preferredUniversityParticipants.list.contains student.university then
        project.preferredUniversityParticipants.importance / 5 else 0), acc.2 + 1)
    else acc
  let acc := if project.preferredAverageMark.importance ≠ 0 then
      (acc.1 + (project.preferredAverageMark.importance / 5) *
        markCalculation student.averageMark project.preferredAverageMark.value, acc.2 + 1)
    else acc
  let acc := if project.preferredWorkExperienceParticipants.length ≠ 0 then
      (acc.1 + weightedListPunctuation project.preferredWorkExperienceParticipants
        student.workExperience, acc.2 + 1)
    else acc
  let acc := if project.preferredVolunteerExperienceParticipants.length ≠ 0 then
      (acc.1 + weightedListPunctuation project.preferredVolunteerExperienceParticipants
        student.volunteerExperience, acc.2 + 1)
    else acc
  let acc := if project.preferredLanguagesParticipants.length ≠ 0 then
      (acc.1 + weightedListPunctuation project.preferredLanguagesParticipants
        student.languages, acc.2 + 1)
    else acc
  pyDiv acc.1 acc.2

/-- The inner roster scan of the skills loop (lines 141-147): scan the
roster in order; the first member whose skills contain the tag decides
coverage.  Returns `(covered, coveredByAnotherStudent)` where the second
component records whether the matching member differs from
`studentNumber`.  Roster entries index `students` Python-style. -/
def skillCover (students : List Student) : List Int → String → Int →
    Except PyErr (Bool × Bool)
  | [], _, _ => .ok (false, false)
  | sid :: rest, tag, studentNumber =>
    match pyGetE students sid with
    | .error e => .error e
    | .ok st =>
      if st.skills.contains tag then .ok (true, sid != studentNumber)
      else skillCover students rest tag studentNumber

/-- The skills loop of `_rewardCalculation` (lines 135-147), accumulating
`(maximumSkillsPunctuation, skillsPunctuation, oldSkillsPunctuation)`.
As in the source, the roster `studentsAssignedToProject[projectId][opt]`
is fetched inside the loop, so an empty skills list never touches it. -/
def skillsAccum (students : List Student) (sATP : List (List (List Int)))
    (projectId : Int) (opt : ℕ) (studentNumber : Int) :
    List (ℚ × String) → ℚ × ℚ × ℚ → Except PyErr (ℚ × ℚ × ℚ)
  | [], acc => .ok acc
  | skill :: rest, (maxP, skP, oldP) =>
    let maxP := maxP + skill.1 / 5
    match pyGetE sATP projectId with
    | .error e => .error e
    | .ok rosterRow =>
      match pyGetE rosterRow (opt : Int) with
      | .error e => .error e
      | .ok roster =>
        match skillCover students roster skill.2 studentNumber with
        | .error e => .error e
        | .ok (cov, covOld) =>
          skillsAccum students sATP projectId opt studentNumber rest
            (maxP, skP + (if cov then skill.1 / 5 else 0),
              oldP + (if covOld then skill.1 / 5 else 0))

/-- Embeds `_rewardCalculation` (lines 124-163).  It reads `self.students`,
`self.projects` and `self.studentsAssignedToProject` but never
`self.state`, so those three components are its explicit arguments. -/
def rewardCalculation (dk : Loc → Loc → ℚ) (students : List Student)
    (projects : List Project) (sATP : List (List (List Int)))
    (studentNumber projectNumber : Int) (opt : ℕ) : Except PyErr ℚ :=
  match pyGetE students studentNumber with
  | .error e => .error e
  | .ok student =>
    match pyGetE projects projectNumber with
    | .error e => .error e
    | .ok project =>
      match studentPreferencesPunctuation dk student project with
      | .error e => .error e
      | .ok studentP =>
        match projectPreferencesPunctuation student project with
        | .error e => .error e
        | .ok projectP =>
          match skillsAccum students sATP project.id opt studentNumber
              project.preferredSkillsNeeded (0, 0, 0) with
          | .error e => .error e
          | .ok (maxP, skP, oldP) =>
            match pyDiv skP maxP with
            | .error e => .error e
            | .ok skillsP =>
              match pyDiv oldP maxP with
              | .error e => .error e
              | .ok oldSkillsP =>
                .ok (ALPHA * studentP + GAMMA * projectP +
                  EPSILON * (skillsP - oldSkillsP))

/-- Embeds `_isDone` (lines 179-185): true iff every per-option counter equals
the number of students. -/
def isDone (env : Env) : Bool :=
  env.assigned.all fun assignations => assignations == env.students.length

/-- The info component of `step`'s result: either the "Nothing done"
string or the assignment record of the success string (lines 236, 254). -/
inductive StepInfo where
  | nothingDone
  | assigned (opt : ℕ) (student project : Int) (reward : ℚ)
deriving DecidableEq

/-- The `(state, reward, done, info)` quadruple `step` returns. -/
abbrev StepOut := List (List Int) × ℚ × Bool × StepInfo

/-- Outcome of one iteration of `step`'s option loop: continue with the
next option, or stop with the final environment and result. -/
inductive LoopStep where
  | next
  | stop (res : Env × Except PyErr StepOut)

/-- One iteration of `step`'s option loop (lines 237-263), for option
`opt`.  Evaluation follows the source order: read the slot; if it is
unassigned, read the roster, its bucket, and the project for the
capacity and duplicate checks; on acceptance write the slot (line 250),
compute the reward (line 251, after the grid write and before the roster
append), increment the counter (line 252), append to the roster
(line 253).  A raised error stops the call with the mutations already
made. -/
def stepTry (dk : Loc → Loc → ℚ) (env : Env) (studentNumber projectNumber : Int)
    (opt : ℕ) : LoopStep :=
  match pyGetE env.state studentNumber with
  | .error e => .stop (env, .error e)
  | .ok row =>
    match pyGetE row (opt : Int) with
    | .error e => .stop (env, .error e)
    | .ok v =>
      if v = -1 then
        match pyGetE env.studentsAssignedToProject projectNumber with
        | .error e => .stop (env, .error e)
        | .ok rosterRow =>
          match pyGetE rosterRow (opt : Int) with
          | .error e => .stop (env, .error e)
          | .ok roster =>
            match pyGetE env.projects projectNumber with
            | .error e => .stop (env, .error e)
            | .ok project =>
              if (roster.length : Int) < project.nParticipants then
                if row.contains project.id then
                  .stop (env, .ok (env.state, 0, isDone env, .nothingDone))
                else
                  let env1 := { env with
                    state := pySet env.state studentNumber (pySet row (opt : Int) project.id) }
                  match rewardCalculation dk env.students env.projects
                      env.studentsAssignedToProject studentNumber projectNumber opt with
                  | .error e => .stop (env1, .error e)
                  | .ok reward =>
                    match pyIdx env.assigned.length (opt : Int) with
                    | none => .stop (env1, .error .indexError)
                    | some j =>
                      let env3 := { env1 with
                        assigned := env.assigned.set j (env.assigned.getD j 0 + 1),
                        studentsAssignedToProject :=
                          pySet env.studentsAssignedToProject projectNumber
                            (pySet rosterRow (opt : Int) (roster ++ [studentNumber])) }
                      .stop (env3, .ok (env3.state, reward, isDone env3,
                        .assigned opt studentNumber projectNumber reward))
              else
                .stop (env, .ok (env.state, 0, isDone env, .nothingDone))
      else .next

/-- The option loop of `step` over the remaining options. -/
def stepGo (dk : Loc → Loc → ℚ) (env : Env) (studentNumber projectNumber : Int) :
    List ℕ → Env × Except PyErr StepOut
  | [] => (env, .ok (env.state, 0, isDone env, .nothingDone))
  | opt :: rest =>
    match stepTry dk env studentNumber projectNumber opt with
    | .next => stepGo dk env studentNumber projectNumber rest
    | .stop res => res

/-- Embeds `step` (lines 230-265), with `withImage = False`: loop over options
`range(0, numberOptions)`. -/
def step (dk : Loc → Loc → ℚ) (env : Env) (studentNumber projectNumber : Int) :
    Env × Except PyErr StepOut :=
  stepGo dk env studentNumber projectNumber (List.range' 0 env.numberOptions)

/-- The fresh internal state built by `__init__` (lines 43-45) and
`reset` (lines 270-272). -/
def initEnv (students : List Student) (projects : List Project)
    (numberOptions : ℕ) : Env :=
  { students := students
    projects := projects
    numberOptions := numberOptions
    state := List.replicate students.length (List.replicate numberOptions (-1))
    assigned := List.replicate numberOptions 0
    studentsAssignedToProject :=
      List.replicate projects.length (List.replicate numberOptions ([] : List Int)) }

/-- Embeds `reset` (lines 267-274). -/
def reset (env : Env) : Env :=
  { env with
    state := List.replicate env.students.length (List.replicate env.numberOptions (-1))
    assigned := List.replicate env.numberOptions 0
    studentsAssignedToProject :=
      List.replicate env.projects.length (List.replicate env.numberOptions ([] : List Int)) }

/-- Stub for the external geodesic-distance function, used by the concrete
test environments (none of which has an active location preference). -/
def dk0 : Loc → Loc → ℚ := fun _ _ => 0

/-- A student whose only active preference is remote work (importance 5)
and who has skill `"a"`. -/
def studentA : Student :=
  { preferredLocation := ⟨0, (0, 0)⟩
    preferredRemote := ⟨5, true⟩
    preferredMinimumSalary := ⟨0, 0⟩
    preferredTypeInternship := ⟨0, []⟩
    age := 20
    degree := 1
    university := "U"
    averageMark := 8
    skills := ["a"]
    workExperience := []
    volunteerExperience := []
    languages := [] }

/-- A student with no active (nonzero-importance) preference criterion:
scoring it raises `ZeroDivisionError`. -/
def studentZero : Student := { studentA with preferredRemote := ⟨0, true⟩ }

/-- A remote project with capacity 2 that prefers age 20 (importance 5),
university `"U"` (importance 5) and needs skill `"a"` (importance 5). -/
def projectA : Project :=
  { id := 0
    location := (0, 0)
    remote := true
    minimumSalary := 0
    type := "t"
    nParticipants := 2
    preferredAgeParticipants := ⟨5, 20⟩
    preferredDegreeParticipants := ⟨0, 0⟩
    preferredUniversityParticipants := ⟨5, ["U"]⟩
    preferredAverageMark := ⟨0, 0⟩
    preferredWorkExperienceParticipants := []
    preferredVolunteerExperienceParticipants := []
    preferredLanguagesParticipants := []
    preferredSkillsNeeded := [(5, "a")] }

/-- Like `projectA` but with an empty weighted skill-needs list. -/
def projectNoSkills : Project := { projectA with preferredSkillsNeeded := [] }

/-- Like `projectA` but with capacity 1. -/
def projectCap1 : Project := { projectA with nParticipants := 1 }

/-- One student, one project, one option. -/
def envA : Env := initEnv [studentA] [projectA] 1

/-- State of `envA` after the accepted step `(0, 0)`. -/
def envAafter : Env :=
  { envA with state := [[0]], assigned := [1], studentsAssignedToProject := [[[0]]] }

/-- One all-zero-importance student, one project, one option. -/
def envZ : Env := initEnv [studentZero] [projectA] 1

/-- One student, one project needing no skills, one option. -/
def envNoSkills : Env := initEnv [studentA] [projectNoSkills] 1

/-- Two students, one capacity-1 project, one option. -/
def envTwo : Env := initEnv [studentA, studentA] [projectCap1] 1

/-- State of `envTwo` after the accepted step `(0, 0)`. -/
def envTwoAfter : Env :=
  { envTwo with state := [[0], [-1]], assigned := [1], studentsAssignedToProject := [[[0]]] }

deriving instance DecidableEq for Except

/-- Dimensional well-formedness of an environment: the grid has one row of
length `numberOptions` per student, the roster structure has one row of
length `numberOptions` per project, and the counter list has length
`numberOptions`.  This holds for `initEnv` and is preserved by `step`. -/
def wfDims (env : Env) : Prop :=
  env.state.length = env.students.length ∧
  (∀ row ∈ env.state, row.length = env.numberOptions) ∧
  env.studentsAssignedToProject.length = env.projects.length ∧
  (∀ rosterRow ∈ env.studentsAssignedToProject, rosterRow.length = env.numberOptions) ∧
  env.assigned.length = env.numberOptions

/-- Capacity invariant: every `(project, option)` roster bucket has at most
`nParticipants` members (for the project at the same index). -/
def capacityInv (env : Env) : Prop :=
  ∀ (pi oi : ℕ) (rosterRow : List (List Int)) (bucket : List Int) (proj : Project),
    env.studentsAssignedToProject.get? pi = some rosterRow →
    rosterRow.get? oi = some bucket →
    env.projects.get? pi = some proj →
    (bucket.length : Int) ≤ proj.nParticipants

/-- Number of students whose grid cell for option `o` is assigned
(differs from the `-1` sentinel). -/
def countAssigned (env : Env) (o : ℕ) : ℕ :=
  (env.state.map fun row => if row.getD o (-1) ≠ -1 then 1 else 0).sum

/-- Total roster membership for option `o`, summed over all projects. -/
def sumRoster (env : Env) (o : ℕ) : ℕ :=
  (env.studentsAssignedToProject.map fun rosterRow => (rosterRow.getD o []).length).sum

/-- The counter `assigned[o]` agrees with both the number of assigned grid
cells for option `o` and the total roster membership for option `o`. -/
def countersSync (env : Env) : Prop :=
  ∀ o < env.numberOptions,
    env.assigned.getD o 0 = countAssigned env o ∧ env.assigned.getD o 0 = sumRoster env o

/-- An accepted step raised the counter, the assigned-cell count and the
roster total of option `o` by exactly one and changed no other option. -/
def stepIncrements (env e' : Env) (o : ℕ) : Prop :=
  e'.assigned.getD o 0 = env.assigned.getD o 0 + 1 ∧
  countAssigned e' o = countAssigned env o + 1 ∧
  sumRoster e' o = sumRoster env o + 1 ∧
  ∀ o', o' ≠ o →
    e'.assigned.getD o' 0 = env.assigned.getD o' 0 ∧
    countAssigned e' o' = countAssigned env o' ∧
    sumRoster e' o' = sumRoster env o'

/-- The index `i` is not a valid Python index for a list of length `n`, not even via
negative-index wrap-around. -/
def outOfRangePy (i : Int) (n : ℕ) : Prop := i < -(n : Int) ∨ (n : Int) ≤ i

/-- States reachable from a fresh environment by arbitrary `step` calls
(including calls whose actions are invalid or that raise an error). -/
inductive Reach (dk : Loc → Loc → ℚ) (students : List Student) (projects : List Project)
    (numberOptions : ℕ) : Env → Prop where
  | init : Reach dk students projects numberOptions (initEnv students projects numberOptions)
  | stepped (env : Env) (s p : Int) :
    Reach dk students projects numberOptions env →
    Reach dk students projects numberOptions (step dk env s p).1

/-- States reachable from a fresh environment by `step` calls whose actions
are in range (but which may raise a scoring error). -/
inductive ReachIR (dk : Loc → Loc → ℚ) (students : List Student) (projects : List Project)
    (numberOptions : ℕ) : Env → Prop where
  | init : ReachIR dk students projects numberOptions (initEnv students projects numberOptions)
  | stepped (env : Env) (s p : Int) :
    ReachIR dk students projects numberOptions env →
    0 ≤ s → s < (students.length : Int) →
    0 ≤ p → p < (projects.length : Int) →
    ReachIR dk students projects numberOptions (step dk env s p).1

/-- States reachable from a fresh environment by in-range `step` calls that
return normally (no raised error). -/
inductive ReachOk (dk : Loc → Loc → ℚ) (students : List Student) (projects : List Project)
    (numberOptions : ℕ) : Env → Prop where
  | init : ReachOk dk students projects numberOptions (initEnv students projects numberOptions)
  | stepped (env : Env) (s p : Int) (out : StepOut) :
    ReachOk dk students projects numberOptions env →
    0 ≤ s → s < (students.length : Int) →
    0 ≤ p → p < (projects.length : Int) →
    (step dk env s p).2 = .ok out →
    ReachOk dk students projects numberOptions (step dk env s p).1

/-- A `step` outcome that left the environment untouched: either the no-op
result of the source's lines 259-265 or an error raised before the first
mutation. -/
def stepNoMutation (env e' : Env) (res : Except PyErr StepOut) : Prop :=
  e' = env ∧ (res = .ok (env.state, 0, isDone env, .nothingDone) ∨ ∃ err, res = .error err)

/-- A `step` outcome that raised after the grid write of line 250: the slot
is written but counters and rosters are untouched. -/
def stepErrAt (env : Env) (s p : Int) (o : ℕ) (e' : Env)
    (res : Except PyErr StepOut) : Prop :=
  ∃ (row : List Int) (proj : Project) (err : PyErr),
    pyGetE env.state s = .ok row ∧
    pyGetE row (o : Int) = .ok (-1) ∧
    pyGetE env.projects p = .ok proj ∧
    e' = { env with state := pySet env.state s (pySet row (o : Int) proj.id) } ∧
    res = .error err

/-- A fully accepted `step` at option `o`: all three acceptance checks
passed, the reward was computed, and the three mutations of lines 250-253
were performed. -/
def stepAcceptAt (dk : Loc → Loc → ℚ) (env : Env) (s p : Int) (o : ℕ) (e' : Env)
    (res : Except PyErr StepOut) : Prop :=
  ∃ (row : List Int) (rosterRow : List (List Int)) (roster : List Int) (proj : Project)
      (r : ℚ) (j : ℕ),
    pyGetE env.state s = .ok row ∧
    pyGetE row (o : Int) = .ok (-1) ∧
    pyGetE env.studentsAssignedToProject p = .ok rosterRow ∧
    pyGetE rosterRow (o : Int) = .ok roster ∧
    pyGetE env.projects p = .ok proj ∧
    (roster.length : Int) < proj.nParticipants ∧
    row.contains proj.id = false ∧
    rewardCalculation dk env.students env.projects env.studentsAssignedToProject s p o = .ok r ∧
    pyIdx env.assigned.length (o : Int) = some j ∧
    e' = { env with
      state := pySet env.state s (pySet row (o : Int) proj.id)
      assigned := env.assigned.set j (env.assigned.getD j 0 + 1)
      studentsAssignedToProject := pySet env.studentsAssignedToProject p
        (pySet rosterRow (o : Int) (roster ++ [s])) } ∧
    res = .ok (e'.state, r, isDone e', .assigned o s p r)

/-! Basic list lemmas used by the verification. -/

theorem list_get?_eq_getD {α : Type} : ∀ (l : List α) (k : ℕ) (d : α), k < l.length →
    l.get? k = some (l.getD k d)
  | _ :: _, 0, _, _ => rfl
  | _ :: l, k + 1, d, h => list_get?_eq_getD l k d (Nat.lt_of_succ_lt_succ h)

theorem list_getD_default {α : Type} : ∀ (l : List α) (k : ℕ) (d : α), l.length ≤ k →
    l.getD k d = d
  | [], _, _, _ => rfl
  | _ :: l, k + 1, d, h => list_getD_default l k d (Nat.le_of_succ_le_succ h)

theorem list_get?_set_self {α : Type} : ∀ (l : List α) (j : ℕ) (a : α), j < l.length →
    (l.set j a).get? j = some a
  | _ :: _, 0, _, _ => rfl
  | _ :: l, j + 1, a, h => list_get?_set_self l j a (Nat.lt_of_succ_lt_succ h)

theorem list_get?_set_ne {α : Type} : ∀ (l : List α) (j k : ℕ) (a : α), j ≠ k →
    (l.set j a).get? k = l.get? k
  | [], _, _, _, _ => rfl
  | _ :: _, 0, 0, _, h => absurd rfl h
  | _ :: _, 0, _ + 1, _, _ => rfl
  | _ :: _, _ + 1, 0, _, _ => rfl
  | _ :: l, j + 1, k + 1, a, h => list_get?_set_ne l j k a fun hh => h (by rw [hh])

theorem list_getD_set_self {α : Type} : ∀ (l : List α) (j : ℕ) (a d : α), j < l.length →
    (l.set j a).getD j d = a
  | _ :: _, 0, _, _, _ => rfl
  | _ :: l, j + 1, a, d, h => list_getD_set_self l j a d (Nat.lt_of_succ_lt_succ h)

theorem list_getD_set_ne {α : Type} : ∀ (l : List α) (j k : ℕ) (a d : α), j ≠ k →
    (l.set j a).getD k d = l.getD k d
  | [], _, _, _, _, _ => rfl
  | _ :: _, 0, 0, _, _, h => absurd rfl h
  | _ :: _, 0, _ + 1, _, _, _ => rfl
  | _ :: _, _ + 1, 0, _, _, _ => rfl
  | _ :: l, j + 1, k + 1, a, d, h => list_getD_set_ne l j k a d fun hh => h (by rw [hh])

theorem list_get?_mem {α : Type} : ∀ (l : List α) (k : ℕ) (a : α), l.get? k = some a → a ∈ l
  | b :: l, 0, a, h => by
    have hb : b = a := by injection h
    exact hb ▸ List.mem_cons_self b l
  | b :: l, k + 1, a, h => List.mem_cons_of_mem b (list_get?_mem l k a h)

theorem list_mem_set {α : Type} : ∀ (l : List α) (j : ℕ) (a b : α), b ∈ l.set j a →
    b ∈ l ∨ b = a
  | [], _, _, _, h => Or.inl h
  | c :: l, 0, a, b, h => by
    rcases List.mem_cons.1 h with h | h
    · exact Or.inr h
    · exact Or.inl (List.mem_cons_of_mem c h)
  | c :: l, j + 1, a, b, h => by
    rcases List.mem_cons.1 h with h | h
    · exact Or.inl (h ▸ List.mem_cons_self c l)
    · rcases list_mem_set l j a b h with h | h
      · exact Or.inl (List.mem_cons_of_mem c h)
      · exact Or.inr h

theorem list_map_set {α β : Type} (f : α → β) : ∀ (l : List α) (j : ℕ) (a : α),
    (l.set j a).map f = (l.map f).set j (f a)
  | [], _, _ => rfl
  | _ :: _, 0, _ => rfl
  | b :: l, j + 1, a => by
    simp only [List.set, List.map]
    rw [list_map_set f l j a]

theorem list_sum_set : ∀ (l : List ℕ) (j : ℕ) (a : ℕ), j < l.length →
    (l.set j a).sum + l.getD j 0 = l.sum + a
  | b :: l, 0, a, _ => by simp [List.sum_cons]; omega
  | b :: l, j + 1, a, h => by
    have ih := list_sum_set l j a (Nat.lt_of_succ_lt_succ h)
    simp only [List.set, List.sum_cons, List.getD_cons_succ]
    omega

theorem list_getD_replicate {α : Type} : ∀ (n k : ℕ) (a d : α), k < n →
    (List.replicate n a).getD k d = a
  | _ + 1, 0, _, _, _ => rfl
  | n + 1, k + 1, a, d, h => list_getD_replicate n k a d (Nat.lt_of_succ_lt_succ h)

/-! Lemmas about the Python indexing primitives. -/

theorem pyIdx_nat {n k : ℕ} (h : k < n) : pyIdx n (k : Int) = some k := by
  simp only [pyIdx]
  rw [if_neg (by omega : ¬ ((k : Int) < 0))]
  rw [if_pos (by constructor <;> omega : (0 : Int) ≤ (k : Int) ∧ (k : Int) < (n : Int))]
  simp

theorem pyIdx_lt {n : ℕ} {i : Int} {j : ℕ} (h : pyIdx n i = some j) : j < n := by
  by_cases hi : i < 0 <;>
    simp only [pyIdx, hi, if_true, if_false] at h <;>
    split at h <;>
    first
    | (rename_i hc
       injection h with h2
       omega)
    | cases h

theorem pyIdx_invalid {n : ℕ} {i : Int} (h : i < -(n : Int) ∨ (n : Int) ≤ i) :
    pyIdx n i = none := by
  by_cases hi : i < 0 <;>
    simp only [pyIdx, hi, if_true, if_false] <;>
    rw [if_neg] <;>
    omega

theorem pyGetE_eq_ok {α : Type} {l : List α} {i : Int} {j : ℕ} {a : α}
    (h1 : pyIdx l.length i = some j) (h2 : l.get? j = some a) : pyGetE l i = .ok a := by
  simp only [pyGetE, h1, h2]

theorem pyGetE_ok_elim {α : Type} {l : List α} {i : Int} {a : α} (h : pyGetE l i = .ok a) :
    ∃ j, pyIdx l.length i = some j ∧ l.get? j = some a := by
  rcases hpi : pyIdx l.length i with _ | j <;> simp only [pyGetE, hpi] at h
  · cases h
  · rcases hg : l.get? j with _ | b <;> simp only [hg] at h
    · cases h
    · injection h with h2
      exact ⟨j, rfl, by rw [hg, h2]⟩

theorem pyGetE_nat_getD {α : Type} (l : List α) (k : ℕ) (d : α) (h : k < l.length) :
    pyGetE l (k : Int) = .ok (l.getD k d) :=
  pyGetE_eq_ok (pyIdx_nat h) (list_get?_eq_getD l k d h)

theorem pyGetE_invalid {α : Type} (l : List α) {i : Int}
    (h : i < -(l.length : Int) ∨ (l.length : Int) ≤ i) :
    pyGetE l i = .error .indexError := by
  unfold pyGetE
  rw [pyIdx_invalid h]

theorem pyGetE_ok_mem {α : Type} {l : List α} {i : Int} {a : α} (h : pyGetE l i = .ok a) :
    a ∈ l := by
  rcases pyGetE_ok_elim h with ⟨j, _, h2⟩
  exact list_get?_mem l j a h2

theorem pySet_eq_set {α : Type} {l : List α} {i : Int} {j : ℕ} (a : α)
    (h : pyIdx l.length i = some j) : pySet l i a = l.set j a := by
  unfold pySet
  rw [h]

theorem pySet_length {α : Type} (l : List α) (i : Int) (a : α) :
    (pySet l i a).length = l.length := by
  unfold pySet
  rcases hpi : pyIdx l.length i with _ | j <;> simp [List.length_set]

theorem mem_pySet {α : Type} {l : List α} {i : Int} {a b : α} (h : b ∈ pySet l i a) :
    b ∈ l ∨ b = a := by
  unfold pySet at h
  rcases hpi : pyIdx l.length i with _ | j <;> rw [hpi] at h
  · exact Or.inl h
  · exact list_mem_set l j a b h

theorem pyGetE_pySet_self {α : Type} {l : List α} {i : Int} {j : ℕ} (a : α)
    (h : pyIdx l.length i = some j) : pyGetE (pySet l i a) i = .ok a := by
  rw [pySet_eq_set a h]
  exact pyGetE_eq_ok (by rw [List.length_set]; exact h) (list_get?_set_self l j a (pyIdx_lt h))

theorem pySet_get?_self {α : Type} {l : List α} {i : Int} {j : ℕ} (a : α)
    (h : pyIdx l.length i = some j) : (pySet l i a).get? j = some a := by
  rw [pySet_eq_set a h]
  exact list_get?_set_self l j a (pyIdx_lt h)

theorem pySet_get?_ne {α : Type} {l : List α} {i : Int} {j k : ℕ} (a : α)
    (h : pyIdx l.length i = some j) (hk : j ≠ k) : (pySet l i a).get? k = l.get? k := by
  rw [pySet_eq_set a h]
  exact list_get?_set_ne l j k a hk

theorem pySet_getD_self {α : Type} {l : List α} {i : Int} {j : ℕ} (a d : α)
    (h : pyIdx l.length i = some j) : (pySet l i a).getD j d = a := by
  rw [pySet_eq_set a h]
  exact list_getD_set_self l j a d (pyIdx_lt h)

theorem pySet_getD_ne {α : Type} {l : List α} {i : Int} {j k : ℕ} (a d : α)
    (h : pyIdx l.length i = some j) (hk : j ≠ k) : (pySet l i a).getD k d = l.getD k d := by
  rw [pySet_eq_set a h]
  exact list_getD_set_ne l j k a d hk

/-! Case analysis of one iteration of the option loop. -/

theorem stepTry_spec {dk : Loc → Loc → ℚ} {env : Env} {s p : Int} {o : ℕ} {e' : Env}
    {res : Except PyErr StepOut} (h : stepTry dk env s p o = .stop (e', res)) :
    stepNoMutation env e' res ∨ stepErrAt env s p o e' res ∨ stepAcceptAt dk env s p o e' res := by
  rcases hrow : pyGetE env.state s with err0 | row <;> simp only [stepTry, hrow] at h
  · simp only [LoopStep.stop.injEq, Prod.mk.injEq] at h
    exact Or.inl ⟨h.1.symm, Or.inr ⟨err0, h.2.symm⟩⟩
  · rcases hv : pyGetE row (o : Int) with err1 | v <;> simp only [hv] at h
    · simp only [LoopStep.stop.injEq, Prod.mk.injEq] at h
      exact Or.inl ⟨h.1.symm, Or.inr ⟨err1, h.2.symm⟩⟩
    · by_cases hvv : v = -1
      · rw [if_pos hvv] at h
        subst hvv
        rcases hrr : pyGetE env.studentsAssignedToProject p with err2 | rosterRow <;>
          simp only [hrr] at h
        · simp only [LoopStep.stop.injEq, Prod.mk.injEq] at h
          exact Or.inl ⟨h.1.symm, Or.inr ⟨err2, h.2.symm⟩⟩
        · rcases hro : pyGetE rosterRow (o : Int) with err3 | roster <;> simp only [hro] at h
          · simp only [LoopStep.stop.injEq, Prod.mk.injEq] at h
            exact Or.inl ⟨h.1.symm, Or.inr ⟨err3, h.2.symm⟩⟩
          · rcases hproj : pyGetE env.projects p with err4 | proj <;> simp only [hproj] at h
            · simp only [LoopStep.stop.injEq, Prod.mk.injEq] at h
              exact Or.inl ⟨h.1.symm, Or.inr ⟨err4, h.2.symm⟩⟩
            · by_cases hcap : (roster.length : Int) < proj.nParticipants
              · rw [if_pos hcap] at h
                by_cases hdup : row.contains proj.id = true
                · rw [if_pos hdup] at h
                  simp only [LoopStep.stop.injEq, Prod.mk.injEq] at h
                  exact Or.inl ⟨h.1.symm, Or.inl h.2.symm⟩
                · rw [if_neg hdup] at h
                  rw [Bool.not_eq_true] at hdup
                  rcases hrew : rewardCalculation dk env.students env.projects
                      env.studentsAssignedToProject s p o with err5 | r <;>
                    simp only [hrew] at h
                  · simp only [LoopStep.stop.injEq, Prod.mk.injEq] at h
                    exact Or.inr (Or.inl ⟨row, proj, err5, hrow, hv, hproj, h.1.symm, h.2.symm⟩)
                  · rcases hj : pyIdx env.assigned.length (o : Int) with _ | j <;>
                      simp only [hj] at h
                    · simp only [LoopStep.stop.injEq, Prod.mk.injEq] at h
                      exact Or.inr (Or.inl ⟨row, proj, .indexError, hrow, hv, hproj,
                        h.1.symm, h.2.symm⟩)
                    · simp only [LoopStep.stop.injEq, Prod.mk.injEq] at h
                      refine Or.inr (Or.inr ⟨row, rosterRow, roster, proj, r, j,
                        hrow, hv, hrr, hro, hproj, hcap, hdup, hrew, hj, h.1.symm, ?_⟩)
                      rw [← h.1]
                      exact h.2.symm
              · rw [if_neg hcap] at h
                simp only [LoopStep.stop.injEq, Prod.mk.injEq] at h
                exact Or.inl ⟨h.1.symm, Or.inl h.2.symm⟩
      · rw [if_neg hvv] at h
        cases h

/-- Case analysis of the whole option loop: either no mutation happened,
or exactly one option produced a grid-write-then-error, or exactly one
option was accepted. -/
theorem stepGo_spec {dk : Loc → Loc → ℚ} {env : Env} {s p : Int} :
    ∀ {opts : List ℕ} {e' : Env} {res : Except PyErr StepOut},
    stepGo dk env s p opts = (e', res) →
    stepNoMutation env e' res ∨ (∃ o ∈ opts, stepErrAt env s p o e' res) ∨
      (∃ o ∈ opts, stepAcceptAt dk env s p o e' res)
  | [], e', res, h => by
    simp only [stepGo, Prod.mk.injEq] at h
    exact Or.inl ⟨h.1.symm, Or.inl h.2.symm⟩
  | o :: rest, e', res, h => by
    rcases htry : stepTry dk env s p o with _ | tres <;> simp only [stepGo, htry] at h
    · rcases stepGo_spec h with h1 | ⟨o1, ho1, h1⟩ | ⟨o1, ho1, h1⟩
      · exact Or.inl h1
      · exact Or.inr (Or.inl ⟨o1, List.mem_cons_of_mem o ho1, h1⟩)
      · exact Or.inr (Or.inr ⟨o1, List.mem_cons_of_mem o ho1, h1⟩)
    · rcases tres with ⟨e2, res2⟩
      cases h
      rcases stepTry_spec htry with h1 | h1 | h1
      · exact Or.inl h1
      · exact Or.inr (Or.inl ⟨o, List.mem_cons_self o rest, h1⟩)
      · exact Or.inr (Or.inr ⟨o, List.mem_cons_self o rest, h1⟩)

/-- Case analysis of a full `step` call. -/
theorem step_spec {dk : Loc → Loc → ℚ} {env : Env} {s p : Int} {e' : Env}
    {res : Except PyErr StepOut} (h : step dk env s p = (e', res)) :
    stepNoMutation env e' res ∨ (∃ o < env.numberOptions, stepErrAt env s p o e' res) ∨
      (∃ o < env.numberOptions, stepAcceptAt dk env s p o e' res) := by
  rcases stepGo_spec h with h1 | ⟨o, ho, h1⟩ | ⟨o, ho, h1⟩
  · exact Or.inl h1
  · rw [List.mem_range'_1] at ho
    exact Or.inr (Or.inl ⟨o, by omega, h1⟩)
  · rw [List.mem_range'_1] at ho
    exact Or.inr (Or.inr ⟨o, by omega, h1⟩)

/-! The option loop: skipping filled slots and stopping at the first open
slot. -/

theorem stepTry_next_of {dk : Loc → Loc → ℚ} {env : Env} {s p : Int} {o : ℕ}
    {row : List Int} (h1 : pyGetE env.state s = .ok row) (ho : o < row.length)
    (hv : row.getD o (-1) ≠ -1) : stepTry dk env s p o = .next := by
  have hg := pyGetE_nat_getD row o (-1) ho
  simp only [stepTry, h1, hg]
  rw [if_neg hv]

theorem stepGo_skip {dk : Loc → Loc → ℚ} {env : Env} {s p : Int} :
    ∀ (l1 l2 : List ℕ), (∀ o ∈ l1, stepTry dk env s p o = .next) →
    stepGo dk env s p (l1 ++ l2) = stepGo dk env s p l2
  | [], _, _ => rfl
  | o :: l1, l2, h => by
    have h0 := h o (List.mem_cons_self o l1)
    simp only [List.cons_append, stepGo, h0]
    exact stepGo_skip l1 l2 fun o2 ho2 => h o2 (List.mem_cons_of_mem o ho2)

theorem stepTry_stop_fail {dk : Loc → Loc → ℚ} {env : Env} {s p : Int} {o : ℕ}
    {row roster : List Int} {rosterRow : List (List Int)} {proj : Project}
    (h1 : pyGetE env.state s = .ok row) (ho : o < row.length)
    (hopen : row.getD o (-1) = -1)
    (h2 : pyGetE env.studentsAssignedToProject p = .ok rosterRow)
    (h3 : pyGetE rosterRow (o : Int) = .ok roster)
    (h4 : pyGetE env.projects p = .ok proj)
    (hfail : ¬ (roster.length : Int) < proj.nParticipants ∨ row.contains proj.id = true) :
    stepTry dk env s p o = .stop (env, .ok (env.state, 0, isDone env, .nothingDone)) := by
  have hg := pyGetE_nat_getD row o (-1) ho
  rw [hopen] at hg
  simp only [stepTry, h1, hg, h2, h3, h4, eq_self_iff_true, if_true]
  rcases hfail with hf | hf
  · rw [if_neg hf]
  · by_cases hc : (roster.length : Int) < proj.nParticipants
    · rw [if_pos hc, if_pos hf]
    · rw [if_neg hc]

theorem list_range'_split : ∀ (a k n : ℕ), k < n →
    List.range' a n = List.range' a k ++ (a + k) :: List.range' (a + k + 1) (n - k - 1)
  | a, 0, n + 1, _ => by simp [List.range'_succ]
  | a, k + 1, n + 1, h => by
    have ih := list_range'_split (a + 1) k n (by omega)
    simp only [List.range'_succ, List.cons_append]
    rw [ih]
    have e1 : a + 1 + k = a + (k + 1) := by omega
    have e3 : n - k - 1 = n + 1 - (k + 1) - 1 := by omega
    rw [e1, e3]

/-- If the first open slot of the student's row is `o` and the acceptance
check fails there (full bucket or duplicate project), `step` is the no-op
of lines 259-265: unchanged environment, reward 0, current done flag. -/
theorem step_noop_of_firstOpen_fail {dk : Loc → Loc → ℚ} {env : Env} {s p : Int} {o : ℕ}
    {row roster : List Int} {rosterRow : List (List Int)} {proj : Project}
    (h1 : pyGetE env.state s = .ok row)
    (hrowlen : row.length = env.numberOptions)
    (hskip : ∀ i, i < o → row.getD i (-1) ≠ -1)
    (hon : o < env.numberOptions)
    (hopen : row.getD o (-1) = -1)
    (h2 : pyGetE env.studentsAssignedToProject p = .ok rosterRow)
    (h3 : pyGetE rosterRow (o : Int) = .ok roster)
    (h4 : pyGetE env.projects p = .ok proj)
    (hfail : ¬ (roster.length : Int) < proj.nParticipants ∨ row.contains proj.id = true) :
    step dk env s p = (env, .ok (env.state, 0, isDone env, .nothingDone)) := by
  have hsplit := list_range'_split 0 o env.numberOptions hon
  rw [Nat.zero_add] at hsplit
  have hstop : stepTry dk env s p o = .stop (env, .ok (env.state, 0, isDone env, .nothingDone)) :=
    stepTry_stop_fail h1 (by omega) hopen h2 h3 h4 hfail
  unfold step
  rw [hsplit]
  rw [stepGo_skip (List.range' 0 o) (o :: List.range' (o + 1) (env.numberOptions - o - 1))
    (fun i hi => stepTry_next_of h1 (by have := (List.mem_range'_1.1 hi).2; omega)
      (hskip i (by have := (List.mem_range'_1.1 hi).2; omega)))]
  simp only [stepGo, hstop]

/-- If the student already holds the project in some slot, `step` is a
no-op: every open slot fails the duplicate check (or, if capacity is also
exceeded, the capacity check), and filled slots are skipped. -/
theorem stepGo_noop_of_mem {dk : Loc → Loc → ℚ} {env : Env} {s p : Int}
    {row : List Int} {rosterRow : List (List Int)} {proj : Project}
    (h1 : pyGetE env.state s = .ok row)
    (h2 : pyGetE env.studentsAssignedToProject p = .ok rosterRow)
    (h4 : pyGetE env.projects p = .ok proj)
    (hmem : row.contains proj.id = true) :
    ∀ (opts : List ℕ), (∀ o ∈ opts, o < row.length) → (∀ o ∈ opts, o < rosterRow.length) →
    stepGo dk env s p opts = (env, .ok (env.state, 0, isDone env, .nothingDone))
  | [], _, _ => rfl
  | o :: rest, ha, hb => by
    by_cases hopen : row.getD o (-1) = -1
    · have h3 := pyGetE_nat_getD rosterRow o [] (hb o (List.mem_cons_self o rest))
      have hstop : stepTry dk env s p o =
          .stop (env, .ok (env.state, 0, isDone env, .nothingDone)) :=
        stepTry_stop_fail h1 (ha o (List.mem_cons_self o rest)) hopen h2 h3 h4 (Or.inr hmem)
      simp only [stepGo, hstop]
    · have hnext : stepTry dk env s p o = .next :=
        stepTry_next_of h1 (ha o (List.mem_cons_self o rest)) hopen
      simp only [stepGo, hnext]
      exact stepGo_noop_of_mem h1 h2 h4 hmem rest
        (fun o2 ho2 => ha o2 (List.mem_cons_of_mem o ho2))
        (fun o2 ho2 => hb o2 (List.mem_cons_of_mem o ho2))

theorem step_noop_of_mem {dk : Loc → Loc → ℚ} {env : Env} {s p : Int}
    {row : List Int} {rosterRow : List (List Int)} {proj : Project}
    (h1 : pyGetE env.state s = .ok row)
    (hrowlen : row.length = env.numberOptions)
    (h2 : pyGetE env.studentsAssignedToProject p = .ok rosterRow)
    (hrrlen : rosterRow.length = env.numberOptions)
    (h4 : pyGetE env.projects p = .ok proj)
    (hmem : row.contains proj.id = true) :
    step dk env s p = (env, .ok (env.state, 0, isDone env, .nothingDone)) := by
  unfold step
  exact stepGo_noop_of_mem h1 h2 h4 hmem (List.range' 0 env.numberOptions)
    (fun o ho => by have := (List.mem_range'_1.1 ho).2; omega)
    (fun o ho => by have := (List.mem_range'_1.1 ho).2; omega)

/-! Additional small lemmas. -/

theorem pyIdx_nat_elim {n k j : ℕ} (h : pyIdx n (k : Int) = some j) : j = k ∧ k < n := by
  by_cases hk : k < n
  · rw [pyIdx_nat hk] at h
    injection h with h2
    exact ⟨h2.symm, hk⟩
  · rw [pyIdx_invalid (Or.inr (by omega))] at h
    cases h

theorem list_getD_of_get? {α : Type} : ∀ (l : List α) (k : ℕ) (a d : α),
    l.get? k = some a → l.getD k d = a
  | _ :: _, 0, _, _, h => by injection h
  | _ :: l, k + 1, a, d, h => list_getD_of_get? l k a d h
  | [], _, _, _, h => nomatch h

/-! Structural facts about `initEnv` and preservation by `step`. -/

theorem wfDims_initEnv (students : List Student) (projects : List Project) (n : ℕ) :
    wfDims (initEnv students projects n) := by
  refine ⟨by simp [initEnv], ?_, by simp [initEnv], ?_, by simp [initEnv]⟩
  · intro row hrow
    rw [List.eq_of_mem_replicate hrow]
    simp [initEnv]
  · intro rosterRow hrr
    rw [List.eq_of_mem_replicate hrr]
    simp [initEnv]

theorem capacityInv_initEnv (students : List Student) (projects : List Project) (n : ℕ)
    (hcap : ∀ proj ∈ projects, 0 ≤ proj.nParticipants) :
    capacityInv (initEnv students projects n) := by
  intro pi oi rosterRow bucket proj hg1 hg2 hg3
  have hrr := List.eq_of_mem_replicate (list_get?_mem _ _ _ hg1)
  rw [hrr] at hg2
  have hb := List.eq_of_mem_replicate (list_get?_mem _ _ _ hg2)
  rw [hb]
  have := hcap proj (list_get?_mem _ _ _ hg3)
  simpa using this

theorem countersSync_initEnv (students : List Student) (projects : List Project) (n : ℕ) :
    countersSync (initEnv students projects n) := by
  intro o ho
  have hn : o < n := ho
  constructor
  · rw [show (initEnv students projects n).assigned = List.replicate n 0 from rfl]
    rw [list_getD_replicate n o 0 0 hn]
    unfold countAssigned
    rw [show (initEnv students projects n).state =
      List.replicate students.length (List.replicate n (-1)) from rfl]
    rw [List.map_replicate]
    rw [list_getD_replicate n o (-1 : Int) (-1) hn]
    simp
  · rw [show (initEnv students projects n).assigned = List.replicate n 0 from rfl]
    rw [list_getD_replicate n o 0 0 hn]
    unfold sumRoster
    rw [show (initEnv students projects n).studentsAssignedToProject =
      List.replicate projects.length (List.replicate n ([] : List Int)) from rfl]
    rw [List.map_replicate]
    rw [list_getD_replicate n o ([] : List Int) [] hn]
    simp

theorem step_fields {dk : Loc → Loc → ℚ} {env : Env} {s p : Int} {e' : Env}
    {res : Except PyErr StepOut} (h : step dk env s p = (e', res)) :
    e'.students = env.students ∧ e'.projects = env.projects ∧
      e'.numberOptions = env.numberOptions := by
  rcases step_spec h with ⟨he, _⟩ | ⟨o, _, ⟨row, proj, err, _, _, _, he, _⟩⟩ |
    ⟨o, _, ⟨row, rosterRow, roster, proj, r, j, _, _, _, _, _, _, _, _, _, he, _⟩⟩ <;>
    subst he <;> exact ⟨rfl, rfl, rfl⟩

theorem wfDims_step {dk : Loc → Loc → ℚ} {env : Env} {s p : Int} {e' : Env}
    {res : Except PyErr StepOut} (h : step dk env s p = (e', res)) (hwf : wfDims env) :
    wfDims e' := by
  obtain ⟨hw1, hw2, hw3, hw4, hw5⟩ := hwf
  rcases step_spec h with ⟨he, _⟩ | ⟨o, _, ⟨row, proj, err, h1, _, _, he, _⟩⟩ |
    ⟨o, _, ⟨row, rosterRow, roster, proj, r, j, h1, _, hrr, _, _, _, _, _, hj, he, _⟩⟩
  · subst he
    exact ⟨hw1, hw2, hw3, hw4, hw5⟩
  · subst he
    refine ⟨?_, ?_, hw3, hw4, hw5⟩
    · rw [pySet_length, hw1]
    · intro row2 hrow2
      rcases mem_pySet hrow2 with hm | hm
      · exact hw2 row2 hm
      · rw [hm, pySet_length]
        exact hw2 row (pyGetE_ok_mem h1)
  · subst he
    refine ⟨?_, ?_, ?_, ?_, ?_⟩
    · rw [pySet_length, hw1]
    · intro row2 hrow2
      rcases mem_pySet hrow2 with hm | hm
      · exact hw2 row2 hm
      · rw [hm, pySet_length]
        exact hw2 row (pyGetE_ok_mem h1)
    · rw [pySet_length, hw3]
    · intro rr2 hrr2
      rcases mem_pySet hrr2 with hm | hm
      · exact hw4 rr2 hm
      · rw [hm, pySet_length]
        exact hw4 rosterRow (pyGetE_ok_mem hrr)
    · rw [List.length_set, hw5]

theorem capacityInv_step {dk : Loc → Loc → ℚ} {env : Env} {s p : Int} {e' : Env}
    {res : Except PyErr StepOut} (h : step dk env s p = (e', res))
    (hlen : env.studentsAssignedToProject.length = env.projects.length)
    (hinv : capacityInv env) : capacityInv e' := by
  rcases step_spec h with ⟨he, _⟩ | ⟨o, _, ⟨row, proj, err, _, _, _, he, _⟩⟩ |
    ⟨o, _, ⟨row, rosterRow, roster, proj, r, j, h1, hv, hrr, hro, hproj, hcap, _, _, hj, he, _⟩⟩
  · subst he
    exact hinv
  · subst he
    exact hinv
  · subst he
    intro pi oi rr2 bucket2 proj2 hg1 hg2 hg3
    replace hg1 : (pySet env.studentsAssignedToProject p
        (pySet rosterRow (o : Int) (roster ++ [s]))).get? pi = some rr2 := hg1
    replace hg3 : env.projects.get? pi = some proj2 := hg3
    obtain ⟨jp, hjp, hjpget⟩ := pyGetE_ok_elim hrr
    obtain ⟨jp2, hjp2, hjp2get⟩ := pyGetE_ok_elim hproj
    have hjp' : pyIdx env.projects.length p = some jp := by rw [← hlen]; exact hjp
    have hjpeq : jp = jp2 := by
      rw [hjp'] at hjp2
      injection hjp2
    have hprojget : env.projects.get? jp = some proj := by rw [hjpeq]; exact hjp2get
    by_cases hpi : pi = jp
    · subst hpi
      rw [pySet_get?_self _ hjp] at hg1
      have hrr2 : rr2 = pySet rosterRow (o : Int) (roster ++ [s]) :=
        (Option.some.inj hg1).symm
      subst hrr2
      obtain ⟨jo, hjo, hjoget⟩ := pyGetE_ok_elim hro
      have hproj2 : proj2 = proj := Option.some.inj (hg3.symm.trans hprojget)
      subst hproj2
      by_cases hoi : oi = jo
      · subst hoi
        rw [pySet_get?_self _ hjo] at hg2
        have hb2 : bucket2 = roster ++ [s] := (Option.some.inj hg2).symm
        subst hb2
        rw [List.length_append]
        simp only [List.length_cons, List.length_nil]
        push_cast
        omega
      · rw [pySet_get?_ne _ hjo (fun hh => hoi hh.symm)] at hg2
        exact hinv pi oi rosterRow bucket2 proj2 hjpget hg2 hprojget
    · rw [pySet_get?_ne _ hjp (fun hh => hpi hh.symm)] at hg1
      exact hinv pi oi rr2 bucket2 proj2 hg1 hg2 hg3

theorem sum_map_set {α : Type} (f : α → ℕ) (l : List α) (j : ℕ) (a : α) (hj : j < l.length)
    (b : α) (hb : l.get? j = some b) :
    ((l.set j a).map f).sum + f b = (l.map f).sum + f a := by
  rw [list_map_set]
  have hlen : j < (l.map f).length := by rw [List.length_map]; exact hj
  have hsum := list_sum_set (l.map f) j (f a) hlen
  have hget : (l.map f).getD j 0 = f b := by
    apply list_getD_of_get?
    rw [List.get?_map, hb]
    rfl
  rw [hget] at hsum
  exact hsum

/-- An accepted step at option `o` raises the counter, the assigned-cell
count and the roster total of option `o` by one, and changes no other
option. -/
theorem accept_increments {dk : Loc → Loc → ℚ} {env : Env} {s p : Int} {o : ℕ} {e' : Env}
    {res : Except PyErr StepOut} (hacc : stepAcceptAt dk env s p o e' res)
    (hid : ∀ proj ∈ env.projects, proj.id ≠ -1) :
    stepIncrements env e' o := by
  obtain ⟨row, rosterRow, roster, proj, r, j, h1, hv, hrr, hro, hproj, hcap, hdup, hrew,
    hj, he, hres⟩ := hacc
  obtain ⟨hjeq, hjlt⟩ := pyIdx_nat_elim hj
  subst j
  obtain ⟨js, hjs, hjsget⟩ := pyGetE_ok_elim h1
  obtain ⟨jo, hjo, hjoget⟩ := pyGetE_ok_elim hv
  obtain ⟨hjoeq, holt⟩ := pyIdx_nat_elim hjo
  subst jo
  obtain ⟨jp, hjp, hjpget⟩ := pyGetE_ok_elim hrr
  obtain ⟨jo2, hjo2, hjo2get⟩ := pyGetE_ok_elim hro
  obtain ⟨hjo2eq, holt2⟩ := pyIdx_nat_elim hjo2
  subst jo2
  have hpid : proj.id ≠ -1 := hid proj (pyGetE_ok_mem hproj)
  have hrowD : row.getD o (-1) = -1 := list_getD_of_get? row o (-1) (-1) hjoget
  have hrosD : rosterRow.getD o [] = roster := list_getD_of_get? rosterRow o roster [] hjo2get
  have hstate : e'.state = env.state.set js (row.set o proj.id) := by
    rw [he]
    show pySet env.state s (pySet row (o : Int) proj.id) = _
    rw [pySet_eq_set _ hjo, pySet_eq_set _ hjs]
  have hassigned : e'.assigned = env.assigned.set o (env.assigned.getD o 0 + 1) := by
    rw [he]
  have hsATP : e'.studentsAssignedToProject =
      env.studentsAssignedToProject.set jp (rosterRow.set o (roster ++ [s])) := by
    rw [he]
    show pySet env.studentsAssignedToProject p (pySet rosterRow (o : Int) (roster ++ [s])) = _
    rw [pySet_eq_set _ hjo2, pySet_eq_set _ hjp]
  have hjslt : js < env.state.length := pyIdx_lt hjs
  have hjplt : jp < env.studentsAssignedToProject.length := pyIdx_lt hjp
  refine ⟨?_, ?_, ?_, ?_⟩
  · rw [hassigned]
    exact list_getD_set_self env.assigned o _ 0 hjlt
  · unfold countAssigned
    rw [hstate]
    have hsum := sum_map_set (fun rw2 => if rw2.getD o (-1) ≠ -1 then 1 else 0) env.state js
      (row.set o proj.id) hjslt row hjsget
    simp only [] at hsum
    rw [list_getD_set_self row o proj.id (-1) holt] at hsum
    rw [hrowD] at hsum
    rw [if_pos hpid] at hsum
    rw [if_neg (by simp)] at hsum
    omega
  · unfold sumRoster
    rw [hsATP]
    have hsum := sum_map_set (fun rr2 => (rr2.getD o []).length) env.studentsAssignedToProject
      jp (rosterRow.set o (roster ++ [s])) hjplt rosterRow hjpget
    simp only [] at hsum
    rw [list_getD_set_self rosterRow o (roster ++ [s]) [] holt2] at hsum
    rw [hrosD] at hsum
    rw [List.length_append] at hsum
    simp only [List.length_cons, List.length_nil] at hsum
    omega
  · intro o' ho'
    refine ⟨?_, ?_, ?_⟩
    · rw [hassigned]
      exact list_getD_set_ne env.assigned o o' _ 0 (fun hh => ho' hh.symm)
    · unfold countAssigned
      rw [hstate]
      have hsum := sum_map_set (fun rw2 => if rw2.getD o' (-1) ≠ -1 then 1 else 0) env.state js
        (row.set o proj.id) hjslt row hjsget
      simp only [] at hsum
      rw [list_getD_set_ne row o o' proj.id (-1) (fun hh => ho' hh.symm)] at hsum
      omega
    · unfold sumRoster
      rw [hsATP]
      have hsum := sum_map_set (fun rr2 => (rr2.getD o' []).length) env.studentsAssignedToProject
        jp (rosterRow.set o (roster ++ [s])) hjplt rosterRow hjpget
      simp only [] at hsum
      rw [list_getD_set_ne rosterRow o o' (roster ++ [s]) [] (fun hh => ho' hh.symm)] at hsum
      omega

theorem countersSync_step_ok {dk : Loc → Loc → ℚ} {env : Env} {s p : Int} {e' : Env}
    {out : StepOut} (h : step dk env s p = (e', .ok out)) (hid : ∀ proj ∈ env.projects, proj.id ≠ -1)
    (hsync : countersSync env) : countersSync e' := by
  rcases step_spec h with ⟨he, _⟩ | ⟨o, ho, ⟨row, proj, err, _, _, _, _, hres⟩⟩ | ⟨o, ho, hacc⟩
  · subst he
    exact hsync
  · exact absurd hres (by simp)
  · have hinc := accept_increments hacc hid
    have hfields := step_fields h
    intro o' ho'
    rw [hfields.2.2] at ho'
    by_cases heq : o' = o
    · subst heq
      obtain ⟨ha, hc, hs2, _⟩ := hinc
      obtain ⟨hs1, hs1'⟩ := hsync o' ho'
      exact ⟨by rw [ha, hc, hs1], by rw [ha, hs2, hs1']⟩
    · obtain ⟨_, _, _, hother⟩ := hinc
      obtain ⟨ha, hc, hs2⟩ := hother o' heq
      obtain ⟨hs1, hs1'⟩ := hsync o' ho'
      exact ⟨by rw [ha, hc, hs1], by rw [ha, hs2, hs1']⟩

theorem reachOk_inv {dk : Loc → Loc → ℚ} {students : List Student} {projects : List Project}
    {n : ℕ} {env : Env} (h : ReachOk dk students projects n env)
    (hid : ∀ proj ∈ projects, proj.id ≠ -1) :
    env.projects = projects ∧ wfDims env ∧ countersSync env := by
  induction h with
  | init =>
    exact ⟨rfl, wfDims_initEnv students projects n, countersSync_initEnv students projects n⟩
  | stepped env s p out hr hs0 hs1 hp0 hp1 hok ih =>
    obtain ⟨hproj, hwf, hsync⟩ := ih
    have hstep2 : step dk env s p = ((step dk env s p).1, .ok out) := by
      rw [← hok]
    have hfields := step_fields hstep2
    have hid' : ∀ proj ∈ env.projects, proj.id ≠ -1 := by
      rw [hproj]
      exact hid
    exact ⟨by rw [hfields.2.1, hproj], wfDims_step hstep2 hwf,
      countersSync_step_ok hstep2 hid' hsync⟩

theorem reach_capacity {dk : Loc → Loc → ℚ} {students : List Student} {projects : List Project}
    {n : ℕ} {env : Env} (h : Reach dk students projects n env)
    (hcap : ∀ proj ∈ projects, 0 ≤ proj.nParticipants) :
    wfDims env ∧ capacityInv env := by
  induction h with
  | init =>
    exact ⟨wfDims_initEnv students projects n, capacityInv_initEnv students projects n hcap⟩
  | stepped env s p hr ih =>
    have hstep : step dk env s p = ((step dk env s p).1, (step dk env s p).2) := rfl
    exact ⟨wfDims_step hstep ih.1, capacityInv_step hstep ih.1.2.2.1 ih.2⟩

/-! No state mutation for truly out-of-range actions. -/

theorem stepGo_no_mutation_of_invalid {dk : Loc → Loc → ℚ} {env : Env} {s p : Int}
    (hs : env.state.length = env.students.length)
    (hp : env.studentsAssignedToProject.length = env.projects.length)
    (hinv : outOfRangePy s env.students.length ∨ outOfRangePy p env.projects.length) :
    ∀ opts : List ℕ, (stepGo dk env s p opts).1 = env
  | [] => rfl
  | o :: rest => by
    rcases hinv with hbad | hbad
    · have hbad2 : outOfRangePy s env.state.length := by rw [hs]; exact hbad
      have herr : pyGetE env.state s = .error .indexError := pyGetE_invalid env.state hbad2
      simp only [stepGo, stepTry, herr]
    · cases hrow : pyGetE env.state s with
      | error e => simp only [stepGo, stepTry, hrow]
      | ok row =>
        cases hv : pyGetE row (o : Int) with
        | error e => simp only [stepGo, stepTry, hrow, hv]
        | ok v =>
          by_cases hvv : v = -1
          · have hbad2 : outOfRangePy p env.studentsAssignedToProject.length := by
              rw [hp]
              exact hbad
            have herr : pyGetE env.studentsAssignedToProject p = .error .indexError :=
              pyGetE_invalid env.studentsAssignedToProject hbad2
            simp only [stepGo, stepTry, hrow, hv, if_pos hvv, herr]
          · have hnext : stepTry dk env s p o = .next := by
              simp only [stepTry, hrow, hv]
              rw [if_neg hvv]
            simp only [stepGo, hnext]
            exact stepGo_no_mutation_of_invalid hs hp (Or.inr hbad) rest

theorem step_no_mutation_of_invalid {dk : Loc → Loc → ℚ} {env : Env} {s p : Int}
    (hs : env.state.length = env.students.length)
    (hp : env.studentsAssignedToProject.length = env.projects.length)
    (hinv : outOfRangePy s env.students.length ∨ outOfRangePy p env.projects.length) :
    (step dk env s p).1 = env :=
  stepGo_no_mutation_of_invalid hs hp hinv (List.range' 0 env.numberOptions)

/-! Unfolding the reward computation. -/

theorem pyDiv_ok_elim {a b q : ℚ} (h : pyDiv a b = .ok q) : b ≠ 0 ∧ q = a / b := by
  unfold pyDiv at h
  by_cases hb : b = 0
  · rw [if_pos hb] at h
    cases h
  · rw [if_neg hb] at h
    injection h with h2
    exact ⟨hb, h2.symm⟩

theorem rewardCalculation_ok_elim {dk : Loc → Loc → ℚ} {students : List Student}
    {projects : List Project} {sATP : List (List (List Int))} {s p : Int} {o : ℕ} {r : ℚ}
    {student : Student} {proj : Project} {sp pp m a b : ℚ}
    (h : rewardCalculation dk students projects sATP s p o = .ok r)
    (hstu : pyGetE students s = .ok student)
    (hproj : pyGetE projects p = .ok proj)
    (hsp : studentPreferencesPunctuation dk student proj = .ok sp)
    (hpp : projectPreferencesPunctuation student proj = .ok pp)
    (hsk : skillsAccum students sATP proj.id o s proj.preferredSkillsNeeded (0, 0, 0) =
      .ok (m, a, b)) :
    m ≠ 0 ∧ r = ALPHA * sp + GAMMA * pp + EPSILON * (a / m - b / m) := by
  simp only [rewardCalculation, hstu, hproj, hsp, hpp, hsk] at h
  rcases hd1 : pyDiv a m with e1 | q1 <;> simp only [hd1] at h
  · cases h
  · rcases hd2 : pyDiv b m with e2 | q2 <;> simp only [hd2] at h
    · cases h
    · obtain ⟨hm, hq1⟩ := pyDiv_ok_elim hd1
      obtain ⟨_, hq2⟩ := pyDiv_ok_elim hd2
      injection h with h2
      exact ⟨hm, by rw [← h2, hq1, hq2]⟩

/-- The reward computation on a project with an empty skill-needs list
always raises `ZeroDivisionError` at line 150 (`0.0 / 0.0`), provided both
aggregators succeed. -/
theorem rewardCalculation_empty_skills {dk : Loc → Loc → ℚ} {students : List Student}
    {projects : List Project} {sATP : List (List (List Int))} {s p : Int} {o : ℕ}
    {student : Student} {proj : Project} {sp pp : ℚ}
    (hstu : pyGetE students s = .ok student)
    (hproj : pyGetE projects p = .ok proj)
    (hsp : studentPreferencesPunctuation dk student proj = .ok sp)
    (hpp : projectPreferencesPunctuation student proj = .ok pp)
    (hskills : proj.preferredSkillsNeeded = []) :
    rewardCalculation dk students projects sATP s p o = .error .zeroDivisionError := by
  simp only [rewardCalculation, hstu, hproj, hsp, hpp, hskills]
  rfl

/-- If the first open slot passes all acceptance checks, the loop takes the
accepting branch at that slot; the result is whatever the reward
computation and the remaining mutations produce. -/
theorem stepTry_stop_accept {dk : Loc → Loc → ℚ} {env : Env} {s p : Int} {o : ℕ}
    {row roster : List Int} {rosterRow : List (List Int)} {proj : Project}
    (h1 : pyGetE env.state s = .ok row) (ho : o < row.length)
    (hopen : row.getD o (-1) = -1)
    (h2 : pyGetE env.studentsAssignedToProject p = .ok rosterRow)
    (h3 : pyGetE rosterRow (o : Int) = .ok roster)
    (h4 : pyGetE env.projects p = .ok proj)
    (hcap : (roster.length : Int) < proj.nParticipants)
    (hdup : row.contains proj.id = false)
    (herr : rewardCalculation dk env.students env.projects env.studentsAssignedToProject
      s p o = .error .zeroDivisionError) :
    stepTry dk env s p o =
      .stop ({ env with state := pySet env.state s (pySet row (o : Int) proj.id) },
        .error .zeroDivisionError) := by
  have hg := pyGetE_nat_getD row o (-1) ho
  rw [hopen] at hg
  simp only [stepTry, h1, hg, h2, h3, h4, eq_self_iff_true, if_true]
  rw [if_pos hcap]
  rw [if_neg (by rw [hdup]; exact Bool.false_ne_true)]
  simp only [herr]

/-- An accepted step on a project with an empty skill-needs list writes the
grid slot (line 250) and then raises `ZeroDivisionError` in the reward
computation, returning the grid-mutated environment with the error. -/
theorem step_empty_skills_error {dk : Loc → Loc → ℚ} {env : Env} {s p : Int} {o : ℕ}
    {row roster : List Int} {rosterRow : List (List Int)} {proj : Project} {student : Student}
    {sp pp : ℚ}
    (h1 : pyGetE env.state s = .ok row)
    (hrowlen : row.length = env.numberOptions)
    (hskip : ∀ i, i < o → row.getD i (-1) ≠ -1)
    (hon : o < env.numberOptions)
    (hopen : row.getD o (-1) = -1)
    (h2 : pyGetE env.studentsAssignedToProject p = .ok rosterRow)
    (h3 : pyGetE rosterRow (o : Int) = .ok roster)
    (h4 : pyGetE env.projects p = .ok proj)
    (hcap : (roster.length : Int) < proj.nParticipants)
    (hdup : row.contains proj.id = false)
    (hstu : pyGetE env.students s = .ok student)
    (hsp : studentPreferencesPunctuation dk student proj = .ok sp)
    (hpp : projectPreferencesPunctuation student proj = .ok pp)
    (hskills : proj.preferredSkillsNeeded = []) :
    step dk env s p =
      ({ env with state := pySet env.state s (pySet row (o : Int) proj.id) },
        .error .zeroDivisionError) := by
  have hsplit := list_range'_split 0 o env.numberOptions hon
  rw [Nat.zero_add] at hsplit
  have herr : rewardCalculation dk env.students env.projects env.studentsAssignedToProject
      s p o = .error .zeroDivisionError :=
    rewardCalculation_empty_skills hstu h4 hsp hpp hskills
  have hstop := stepTry_stop_accept h1 (by omega) hopen h2 h3 h4 hcap hdup herr
  unfold step
  rw [hsplit]
  rw [stepGo_skip (List.range' 0 o) (o :: List.range' (o + 1) (env.numberOptions - o - 1))
    (fun i hi => stepTry_next_of h1 (by have := (List.mem_range'_1.1 hi).2; omega)
      (hskip i (by have := (List.mem_range'_1.1 hi).2; omega)))]
  simp only [stepGo, hstop]

/-! Claim theorems. -/

/-- C1: code-bug evidence.  For the accepted step `(0, 0)` on `envA`, the
new agent (student 0, who has the one needed skill `"a"`) ends up as the
only member of the `(project 0, option 0)` roster, so the claim says the
skill-synergy term must be strictly positive.  In the code the roster
append (line 253) happens after `_rewardCalculation` (line 251), so the
scan sees a roster without the new agent: both coverage totals are `0`
(second conjunct) and the reward is `13/2 = ALPHA·1 + GAMMA·(1/2) +
EPSILON·0` — the synergy term is `0`, not positive.  The fourth conjunct
shows that scanning the post-step roster `[0]` would have found the skill
covered by the new agent only. -/
theorem c1_synergy_term_always_zero :
    step dk0 envA 0 0 = (envAafter, .ok ([[0]], 13/2, true, .assigned 0 0 0 (13/2))) ∧
    skillsAccum envA.students envA.studentsAssignedToProject 0 0 0 [(5, "a")] (0, 0, 0) =
      .ok (1, 0, 0) ∧
    envAafter.studentsAssignedToProject = [[[0]]] ∧
    skillCover envA.students [0] "a" 0 = .ok (true, false) ∧
    (13/2 : ℚ) = ALPHA * 1 + GAMMA * (1/2) + EPSILON * 0 := by
  refine ⟨?_, ?_, ?_, ?_, ?_⟩ <;> with_unfolding_all rfl

/-- C2: code-bug evidence.  Stepping `(0, 0)` on `envZ` (whose only
student has no active preference criterion) raises `ZeroDivisionError`
inside `_studentPreferencesPunctuation`, but only after line 250 wrote the
grid cell: the post-call environment has `state = [[0]]` while the
counters and rosters are untouched, so the aborted step does mutate the
shared grid, contrary to the claim. -/
theorem c2_scoring_error_corrupts_grid :
    step dk0 envZ 0 0 = ({ envZ with state := [[0]] }, .error .zeroDivisionError) ∧
    envZ.state = [[-1]] ∧ envZ.assigned = [0] ∧ envZ.studentsAssignedToProject = [[[]]] ∧
    studentPreferencesPunctuation dk0 studentZero projectA = .error .zeroDivisionError := by
  refine ⟨?_, ?_, ?_, ?_, ?_⟩ <;> with_unfolding_all rfl

/-- C3: for every accepted step (one that returns an assignment record),
if the two aggregator scores and the skill-synergy component all lie in
`[0, 1]`, the returned reward lies in `[0, 10]` (weights
`ALPHA + GAMMA + EPSILON = 10`). -/
theorem c3_reward_bounds {dk : Loc → Loc → ℚ} {env : Env} {s p : Int} {e' : Env}
    {g : List (List Int)} {r : ℚ} {d : Bool} {o : ℕ} {s2 p2 : Int} {r2 : ℚ}
    {student : Student} {proj : Project} {sp pp m a b : ℚ}
    (hstep : step dk env s p = (e', .ok (g, r, d, .assigned o s2 p2 r2)))
    (hstu : pyGetE env.students s = .ok student)
    (hproj : pyGetE env.projects p = .ok proj)
    (hsp : studentPreferencesPunctuation dk student proj = .ok sp)
    (hpp : projectPreferencesPunctuation student proj = .ok pp)
    (hsk : skillsAccum env.students env.studentsAssignedToProject proj.id o s
      proj.preferredSkillsNeeded (0, 0, 0) = .ok (m, a, b))
    (hsp0 : 0 ≤ sp) (hsp1 : sp ≤ 1) (hpp0 : 0 ≤ pp) (hpp1 : pp ≤ 1)
    (hsk0 : 0 ≤ a / m - b / m) (hsk1 : a / m - b / m ≤ 1) :
    0 ≤ r ∧ r ≤ 10 := by
  rcases step_spec hstep with ⟨_, hres | ⟨err, hres⟩⟩ |
    ⟨o1, _, ⟨_, _, err, _, _, _, _, hres⟩⟩ | ⟨o1, ho1, hacc⟩
  · simp at hres
  · simp at hres
  · simp at hres
  · obtain ⟨row, rosterRow, roster, proj1, r1, j, h1, hv, hrr, hro, hproj1, hcap, hdup, hrew,
      hj, he, hres⟩ := hacc
    simp only [Except.ok.injEq, Prod.mk.injEq, StepInfo.assigned.injEq] at hres
    obtain ⟨hg, hr, hd, hoeq, hs2, hp2, hr2⟩ := hres
    subst hoeq
    subst hr
    have hproj1eq : proj1 = proj := by
      rw [hproj] at hproj1
      injection hproj1 with h2
      exact h2.symm
    subst hproj1eq
    obtain ⟨hm, hreq⟩ := rewardCalculation_ok_elim hrew hstu hproj hsp hpp hsk
    rw [hreq]
    unfold ALPHA GAMMA EPSILON
    constructor <;> nlinarith [hsp0, hsp1, hpp0, hpp1, hsk0, hsk1]

/-- C3 witness: the concrete accepted step `(0, 0)` on `envA` has
components `sp = 1`, `pp = 1/2`, synergy `0/1 - 0/1 = 0`, all in `[0,1]`,
and its reward `13/2` lies in `[0, 10]`. -/
theorem c3_reward_bounds_witness : 0 ≤ (13/2 : ℚ) ∧ (13/2 : ℚ) ≤ 10 :=
  c3_reward_bounds
    (by with_unfolding_all rfl :
      step dk0 envA 0 0 = (envAafter, .ok ([[0]], 13/2, true, .assigned 0 0 0 (13/2))))
    (by with_unfolding_all rfl : pyGetE envA.students 0 = .ok studentA)
    (by with_unfolding_all rfl : pyGetE envA.projects 0 = .ok projectA)
    (by with_unfolding_all rfl :
      studentPreferencesPunctuation dk0 studentA projectA = .ok 1)
    (by with_unfolding_all rfl :
      projectPreferencesPunctuation studentA projectA = .ok (1/2))
    (by with_unfolding_all rfl :
      skillsAccum envA.students envA.studentsAssignedToProject projectA.id 0 0
        projectA.preferredSkillsNeeded (0, 0, 0) = .ok (1, 0, 0))
    (by norm_num) (by norm_num) (by norm_num) (by norm_num) (by norm_num) (by norm_num)

/-- C4 counterexample: the action `(-1, 0)` has `agentId = -1`, outside
`[0, 1)`, yet `step` accepts it through Python negative-index wrap-around
and mutates the grid, the counter and the roster — the claim's
"rejected before any state mutation" is false as stated. -/
theorem c4_counterexample :
    (step dk0 envA (-1) 0).1.state ≠ envA.state ∧
    (step dk0 envA (-1) 0).1.assigned ≠ envA.assigned ∧
    (step dk0 envA (-1) 0).1.studentsAssignedToProject ≠ envA.studentsAssignedToProject := by
  refine ⟨?_, ?_, ?_⟩ <;> with_unfolding_all decide

/-- C4 amended: for an action whose agent id is not a valid Python index
into the student list, or whose project id is not a valid Python index
into the project list (i.e. outside `[-n, n)`), `step` performs no state
mutation: it raises `IndexError` or returns the no-op outcome.  Negative
ids inside `[-n, -1]` wrap around to valid indices and may mutate state
(see the counterexample). -/
theorem c4_amended_no_mutation (dk : Loc → Loc → ℚ) (env : Env) (s p : Int)
    (hs : env.state.length = env.students.length)
    (hp : env.studentsAssignedToProject.length = env.projects.length)
    (hinv : outOfRangePy s env.students.length ∨ outOfRangePy p env.projects.length) :
    (step dk env s p).1 = env :=
  step_no_mutation_of_invalid hs hp hinv

/-- C4 witness: the out-of-range action `(5, 0)` on the one-student
environment `envA` leaves the environment unchanged. -/
theorem c4_amended_no_mutation_witness : (step dk0 envA 5 0).1 = envA :=
  c4_amended_no_mutation dk0 envA 5 0 (by with_unfolding_all rfl) (by with_unfolding_all rfl)
    (Or.inl (Or.inr (by with_unfolding_all decide)))

/-- C5: in every state reachable by arbitrary `step` calls (valid or not,
error-raising or not), provided every declared capacity is nonnegative,
each `(project, option)` roster bucket has at most `nParticipants`
members; and a step whose agent's first open slot points at a full bucket
is rejected as the no-op outcome (unchanged state, reward 0). -/
theorem c5_capacity_law {dk : Loc → Loc → ℚ} {students : List Student}
    {projects : List Project} {n : ℕ} {env : Env}
    (hreach : Reach dk students projects n env)
    (hcap : ∀ proj ∈ projects, 0 ≤ proj.nParticipants) :
    capacityInv env ∧
    (∀ (s p : Int) (o : ℕ) (row roster : List Int) (rosterRow : List (List Int))
        (proj : Project),
      pyGetE env.state s = .ok row →
      row.length = env.numberOptions →
      (∀ i, i < o → row.getD i (-1) ≠ -1) →
      o < env.numberOptions →
      row.getD o (-1) = -1 →
      pyGetE env.studentsAssignedToProject p = .ok rosterRow →
      pyGetE rosterRow (o : Int) = .ok roster →
      pyGetE env.projects p = .ok proj →
      ¬ (roster.length : Int) < proj.nParticipants →
      step dk env s p = (env, .ok (env.state, 0, isDone env, .nothingDone))) := by
  refine ⟨(reach_capacity hreach hcap).2, ?_⟩
  intro s p o row roster rosterRow proj h1 hrowlen hskip hon hopen h2 h3 h4 hfull
  exact step_noop_of_firstOpen_fail h1 hrowlen hskip hon hopen h2 h3 h4 (Or.inl hfull)

/-- C5 witness: after student 0 fills the capacity-1 project, the reached
state satisfies the capacity invariant and student 1's attempt on the full
bucket is rejected as a no-op. -/
theorem c5_capacity_law_witness :
    capacityInv envTwoAfter ∧
    step dk0 envTwoAfter 1 0 =
      (envTwoAfter, .ok (envTwoAfter.state, 0, isDone envTwoAfter, .nothingDone)) := by
  have h0 : (step dk0 envTwo 0 0).1 = envTwoAfter := by with_unfolding_all rfl
  have hbase : Reach dk0 [studentA, studentA] [projectCap1] 1 envTwo := Reach.init
  have hstep := Reach.stepped envTwo 0 0 hbase
  rw [h0] at hstep
  have hc := c5_capacity_law hstep (by with_unfolding_all decide)
  refine ⟨hc.1, ?_⟩
  exact hc.2 1 0 0 [-1] [0] [[0]] projectCap1 (by with_unfolding_all rfl) rfl
    (fun i hi => absurd hi (Nat.not_lt_zero i)) (by decide) rfl
    (by with_unfolding_all rfl) (by with_unfolding_all rfl) (by with_unfolding_all rfl)
    (by with_unfolding_all decide)

/-- C6: (1) if acceptance fails at the agent's first open slot — because
the `(resource, option)` bucket is full or the agent already holds the
project — `step` returns the unchanged environment with reward 0 and the
current done flag, never trying a later slot; (2) repeating an identical
call after a success returns exactly this no-op outcome, because the
agent's row now contains the project id. -/
theorem c6_firstOpen_noop :
    (∀ (dk : Loc → Loc → ℚ) (env : Env) (s p : Int) (o : ℕ) (row roster : List Int)
        (rosterRow : List (List Int)) (proj : Project),
      pyGetE env.state s = .ok row →
      row.length = env.numberOptions →
      (∀ i, i < o → row.getD i (-1) ≠ -1) →
      o < env.numberOptions →
      row.getD o (-1) = -1 →
      pyGetE env.studentsAssignedToProject p = .ok rosterRow →
      pyGetE rosterRow (o : Int) = .ok roster →
      pyGetE env.projects p = .ok proj →
      (¬ (roster.length : Int) < proj.nParticipants ∨ row.contains proj.id = true) →
      step dk env s p = (env, .ok (env.state, 0, isDone env, .nothingDone))) ∧
    (∀ (dk : Loc → Loc → ℚ) (env : Env) (s p : Int) (e' : Env) (g : List (List Int)) (r : ℚ)
        (d : Bool) (o : ℕ) (s2 p2 : Int) (r2 : ℚ),
      wfDims env →
      step dk env s p = (e', .ok (g, r, d, .assigned o s2 p2 r2)) →
      step dk e' s p = (e', .ok (e'.state, 0, isDone e', .nothingDone))) := by
  constructor
  · intro dk env s p o row roster rosterRow proj h1 hlen hskip hon hopen h2 h3 h4 hfail
    exact step_noop_of_firstOpen_fail h1 hlen hskip hon hopen h2 h3 h4 hfail
  · intro dk env s p e' g r d o s2 p2 r2 hwf hstep
    rcases step_spec hstep with ⟨_, hres | ⟨err, hres⟩⟩ |
      ⟨o1, _, ⟨_, _, err, _, _, _, _, hres⟩⟩ | ⟨o1, ho1, hacc⟩
    · simp at hres
    · simp at hres
    · simp at hres
    · obtain ⟨row, rosterRow, roster, proj, r1, j, h1, hv, hrr, hro, hproj, hcap, hdup, hrew,
        hj, he, hres⟩ := hacc
      obtain ⟨js, hjs, hjsget⟩ := pyGetE_ok_elim h1
      obtain ⟨jp, hjp, hjpget⟩ := pyGetE_ok_elim hrr
      obtain ⟨jo, hjo, hjoget⟩ := pyGetE_ok_elim hv
      obtain ⟨hjoeq, holt⟩ := pyIdx_nat_elim hjo
      subst jo
      have h1' : pyGetE e'.state s = .ok (pySet row (o1 : Int) proj.id) := by
        rw [he]
        show pyGetE (pySet env.state s (pySet row (o1 : Int) proj.id)) s = _
        exact pyGetE_pySet_self _ hjs
      have h2' : pyGetE e'.studentsAssignedToProject p =
          .ok (pySet rosterRow (o1 : Int) (roster ++ [s])) := by
        rw [he]
        show pyGetE (pySet env.studentsAssignedToProject p
          (pySet rosterRow (o1 : Int) (roster ++ [s]))) p = _
        exact pyGetE_pySet_self _ hjp
      have h4' : pyGetE e'.projects p = .ok proj := by
        rw [he]
        exact hproj
      have hmemrow : proj.id ∈ pySet row (o1 : Int) proj.id :=
        list_get?_mem _ _ _ (pySet_get?_self _ hjo)
      have hmem : (pySet row (o1 : Int) proj.id).contains proj.id = true :=
        List.elem_eq_true_of_mem hmemrow
      have hrowmem : row ∈ env.state := pyGetE_ok_mem h1
      have hrrmem : rosterRow ∈ env.studentsAssignedToProject := pyGetE_ok_mem hrr
      have hrowlen : (pySet row (o1 : Int) proj.id).length = e'.numberOptions := by
        rw [pySet_length]
        rw [he]
        show row.length = env.numberOptions
        exact hwf.2.1 row hrowmem
      have hrrlen : (pySet rosterRow (o1 : Int) (roster ++ [s])).length = e'.numberOptions := by
        rw [pySet_length]
        rw [he]
        show rosterRow.length = env.numberOptions
        exact hwf.2.2.2.1 rosterRow hrrmem
      exact step_noop_of_mem h1' hrowlen h2' hrrlen h4' hmem

/-- C6 witness: a capacity rejection at the first open slot is the no-op
outcome, and repeating the successful step `(0, 0)` on `envA` is the no-op
outcome. -/
theorem c6_firstOpen_noop_witness :
    step dk0 envTwoAfter 1 0 =
      (envTwoAfter, .ok (envTwoAfter.state, 0, isDone envTwoAfter, .nothingDone)) ∧
    step dk0 envAafter 0 0 =
      (envAafter, .ok (envAafter.state, 0, isDone envAafter, .nothingDone)) := by
  constructor
  · exact c6_firstOpen_noop.1 dk0 envTwoAfter 1 0 0 [-1] [0] [[0]] projectCap1
      (by with_unfolding_all rfl) rfl (fun i hi => absurd hi (Nat.not_lt_zero i)) (by decide)
      rfl (by with_unfolding_all rfl) (by with_unfolding_all rfl) (by with_unfolding_all rfl)
      (Or.inl (by with_unfolding_all decide))
  · exact c6_firstOpen_noop.2 dk0 envA 0 0 envAafter [[0]] (13/2) true 0 0 0 (13/2)
      (wfDims_initEnv [studentA] [projectA] 1)
      (by with_unfolding_all rfl)

/-- C7 counterexample: on `envNoSkills` the step `(0, 0)` passes all
acceptance checks and writes the grid cell, but because the project's
weighted skill-needs list is empty the reward computation raises
`ZeroDivisionError` — the reward is not defined, contradicting the claimed
exclusion of the skill term. -/
theorem c7_counterexample :
    projectNoSkills.preferredSkillsNeeded = [] ∧
    (step dk0 envNoSkills 0 0).1.state = [[0]] ∧
    (step dk0 envNoSkills 0 0).2 = .error .zeroDivisionError := by
  refine ⟨rfl, ?_, ?_⟩ <;> with_unfolding_all rfl

/-- C7 amended: every step accepted at the agent's first open slot on a
project whose weighted skill-needs list is empty writes the grid slot and
then aborts with a zero-denominator error (`skillsPunctuation /=
maximumSkillsPunctuation` with a zero maximum); the skill term is not
excluded and no reward is returned. -/
theorem c7_amended_empty_skills_error (dk : Loc → Loc → ℚ) (env : Env) (s p : Int) (o : ℕ)
    (row roster : List Int) (rosterRow : List (List Int)) (proj : Project) (student : Student)
    (sp pp : ℚ)
    (h1 : pyGetE env.state s = .ok row)
    (hrowlen : row.length = env.numberOptions)
    (hskip : ∀ i, i < o → row.getD i (-1) ≠ -1)
    (hon : o < env.numberOptions)
    (hopen : row.getD o (-1) = -1)
    (h2 : pyGetE env.studentsAssignedToProject p = .ok rosterRow)
    (h3 : pyGetE rosterRow (o : Int) = .ok roster)
    (h4 : pyGetE env.projects p = .ok proj)
    (hcap : (roster.length : Int) < proj.nParticipants)
    (hdup : row.contains proj.id = false)
    (hstu : pyGetE env.students s = .ok student)
    (hsp : studentPreferencesPunctuation dk student proj = .ok sp)
    (hpp : projectPreferencesPunctuation student proj = .ok pp)
    (hskills : proj.preferredSkillsNeeded = []) :
    step dk env s p =
      ({ env with state := pySet env.state s (pySet row (o : Int) proj.id) },
        .error .zeroDivisionError) :=
  step_empty_skills_error h1 hrowlen hskip hon hopen h2 h3 h4 hcap hdup hstu hsp hpp hskills

/-- C7 witness: the concrete accepted step `(0, 0)` on `envNoSkills`
returns the grid-mutated environment with `ZeroDivisionError`. -/
theorem c7_amended_empty_skills_error_witness :
    step dk0 envNoSkills 0 0 =
      ({ envNoSkills with
          state := pySet envNoSkills.state 0 (pySet [-1] 0 projectNoSkills.id) },
        .error .zeroDivisionError) :=
  c7_amended_empty_skills_error dk0 envNoSkills 0 0 0 [-1] [] [[]] projectNoSkills studentA
    1 (1/2) (by with_unfolding_all rfl) rfl (fun i hi => absurd hi (Nat.not_lt_zero i))
    (by decide) rfl (by with_unfolding_all rfl) (by with_unfolding_all rfl)
    (by with_unfolding_all rfl) (by with_unfolding_all decide) (by with_unfolding_all rfl)
    (by with_unfolding_all rfl) (by with_unfolding_all rfl) (by with_unfolding_all rfl) rfl

/-- C8: `_isDone` returns true iff every per-option slot counter equals
the total number of students (for every state, in particular every
reachable one). -/
theorem c8_isDone_iff (env : Env) :
    isDone env = true ↔ ∀ c ∈ env.assigned, c = env.students.length := by
  simp [isDone, List.all_eq_true]

/-- C9: `reset` rebuilds exactly the state of a freshly constructed
environment with the same students, projects and option count — whatever
mutations the environment has accumulated. -/
theorem c9_reset_eq_init (env : Env) :
    reset env = initEnv env.students env.projects env.numberOptions := rfl

/-- C10 counterexample: the in-range step `(0, 0)` on `envZ` raises
`ZeroDivisionError` after writing the grid cell, so the reached state (one
in-range step from a fresh environment) has one assigned cell for option 0
but `assigned[0] = 0`: the three quantities are no longer equal. -/
theorem c10_counterexample :
    ReachIR dk0 [studentZero] [projectA] 1 { envZ with state := [[0]] } ∧
    ¬ countersSync { envZ with state := [[0]] } := by
  constructor
  · have h0 : (step dk0 envZ 0 0).1 = { envZ with state := [[0]] } := by
      with_unfolding_all rfl
    have hbase : ReachIR dk0 [studentZero] [projectA] 1 envZ := ReachIR.init
    have hstep := ReachIR.stepped envZ 0 0 hbase (by decide) (by decide) (by decide) (by decide)
    rw [h0] at hstep
    exact hstep
  · intro hsync
    exact absurd ((hsync 0 (by decide)).1) (by decide)

/-- C10 amended: restricted to in-range `step` calls that return without a
raised error, the counter `assigned[o]` equals both the number of agents
whose option-`o` cell is assigned and the sum of option-`o` roster sizes,
in every reachable state (given project ids differ from the `-1`
sentinel); and each accepted step raises exactly its option's three
quantities by one, leaving other options unchanged. -/
theorem c10_amended_counters_sync {dk : Loc → Loc → ℚ} {students : List Student}
    {projects : List Project} {n : ℕ} {env : Env}
    (hreach : ReachOk dk students projects n env)
    (hid : ∀ proj ∈ projects, proj.id ≠ -1) :
    countersSync env ∧
    (∀ (s p : Int) (e' : Env) (g : List (List Int)) (r : ℚ) (d : Bool) (o : ℕ)
        (s2 p2 : Int) (r2 : ℚ),
      step dk env s p = (e', .ok (g, r, d, .assigned o s2 p2 r2)) →
      stepIncrements env e' o) := by
  obtain ⟨hproj, hwf, hsync⟩ := reachOk_inv hreach hid
  refine ⟨hsync, ?_⟩
  intro s p e' g r d o s2 p2 r2 hstep
  have hid' : ∀ pr ∈ env.projects, pr.id ≠ -1 := by
    rw [hproj]
    exact hid
  rcases step_spec hstep with ⟨_, hres | ⟨err, hres⟩⟩ |
    ⟨o1, _, ⟨_, _, err, _, _, _, _, hres⟩⟩ | ⟨o1, ho1, hacc⟩
  · simp at hres
  · simp at hres
  · simp at hres
  · obtain ⟨row, rosterRow, roster, proj, r1, j, h1, hv, hrr, hro, hproj2, hcap, hdup, hrew,
      hj, he, hres⟩ := hacc
    simp only [Except.ok.injEq, Prod.mk.injEq, StepInfo.assigned.injEq] at hres
    obtain ⟨hg, hr, hd, hoeq, hs2, hp2, hr2⟩ := hres
    subst hoeq
    exact accept_increments ⟨row, rosterRow, roster, proj, r1, j, h1, hv, hrr, hro, hproj2,
      hcap, hdup, hrew, hj, he, rfl⟩ hid'

/-- C10 witness: after the error-free accepted step `(0, 0)` on `envA`,
the counters are synchronized. -/
theorem c10_amended_counters_sync_witness : countersSync envAafter := by
  have h0 : (step dk0 envA 0 0).1 = envAafter := by with_unfolding_all rfl
  have h2 : (step dk0 envA 0 0).2 = .ok ([[0]], 13/2, true, .assigned 0 0 0 (13/2)) := by
    with_unfolding_all rfl
  have hbase : ReachOk dk0 [studentA] [projectA] 1 envA := ReachOk.init
  have hstep := ReachOk.stepped envA 0 0 ([[0]], 13/2, true, .assigned 0 0 0 (13/2)) hbase
    (by decide) (by decide) (by decide) (by decide) h2
  rw [h0] at hstep
  exact (c10_amended_counters_sync hstep (by with_unfolding_all decide)).1
